import Mathlib

/-!
# Verification of the alea-signal ingestion-and-scoring pipeline

Shallow embedding of `app/lib/sync-core.mjs` (the sync/score script): the
JSON value model, the field coercions (`safeNumber`, `pickFirstNumber`,
`parseDate`), the normalizer (`normalizeTags`, `normalizeOutcomeName`,
`normalizeOutcomePrices`, `buildMarketRecord`), the reference statistics
(`percentile`), the scorer (`logScore`, `daysToExpiry`, `scoreMarket`), and a
step model of the `runSync` orchestrator's effect sequence and status writes.

JavaScript machine-level primitives that the script delegates to the runtime
(string-to-number coercion `Number(string)`, date-string parsing
`new Date(string)`, number formatting `String(number)`, `Math.log10`) are kept
abstract as fields of a `JsPrims` structure; every general theorem below is
proved for all instantiations of those primitives, so in particular for the
actual JavaScript ones.
-/

/-- A JSON value as delivered by `response.json()`: `null`, booleans, finite
numbers, strings, arrays and objects.  JavaScript `undefined` is represented
at use sites by `Option Json` (`none` = `undefined`). -/
inductive Json where
  | null : Json
  | bool (b : Bool) : Json
  | num (q : ℚ) : Json
  | str (s : String) : Json
  | arr (elems : List Json) : Json
  | obj (fields : List (String × Json)) : Json

/-- The JavaScript runtime primitives the script calls but does not define.
`strToNumber`/`arrObjToNumber` model `Number(·)` on strings and on
arrays/objects (`none` when the result is `NaN` or non-finite), `dateFrom`
models `new Date(·)` on non-number values (`none` when the date is invalid,
otherwise the epoch-millisecond timestamp), `numToString`/`otherToString`
model `String(·)` on numbers and on arrays/objects, and `log10` models
`Math.log10`. -/
structure JsPrims where
  strToNumber : String → Option ℚ
  arrObjToNumber : Json → Option ℚ
  dateFrom : Json → Option ℤ
  numToString : ℚ → String
  otherToString : Json → String
  log10 : ℚ → ℚ

/-- Property access `value[key]` on a JSON value: defined (≠ `undefined`)
exactly for objects that carry the key.  Since the script only accesses
named (non-index) properties, arrays and primitives yield `undefined`. -/
def jsGetKey (j : Json) (key : String) : Option Json :=
  match j with
  | .obj fields => (fields.find? (fun kv => kv.1 == key)).map (fun kv => kv.2)
  | _ => none

/-- Optional-chained access `base?.key` on a possibly-undefined base. -/
def jsGetOpt (j : Option Json) (key : String) : Option Json :=
  match j with
  | some v => jsGetKey v key
  | none => none

/-- JavaScript truthiness: `null`/`undefined`, `false`, `0` and `""` are
falsy; every other JSON value is truthy. -/
def truthy : Json → Bool
  | .null => false
  | .bool b => b
  | .num q => decide (q ≠ 0)
  | .str s => decide (s ≠ "")
  | .arr _ => true
  | .obj _ => true

/-- Truthiness of a possibly-undefined value (`undefined` is falsy). -/
def truthyOpt : Option Json → Bool
  | some v => truthy v
  | none => false

/-- One step of the `??` operator: keep the left operand unless it is
`null` or `undefined`. -/
def jsCoalesce2 (a b : Option Json) : Option Json :=
  match a with
  | some .null => b
  | none => b
  | some v => some v

/-- A chain `a ?? b ?? c ?? …` folded over a candidate list; `none` when every
candidate is `null`/`undefined`. -/
def jsCoalesce (candidates : List (Option Json)) : Option Json :=
  candidates.foldr (fun a acc => jsCoalesce2 a acc) none

/-- `hasOwn` from the script:
`Boolean(value && typeof value === "object" && Object.prototype.hasOwnProperty.call(value, key))`.
Only objects carry the (named, own) keys the script probes for. -/
def hasOwn (value : Json) (key : String) : Bool :=
  match value with
  | .obj fields => fields.any (fun kv => kv.1 == key)
  | _ => false

/-- `hasAnyField` from the script: some key of `keys` is an own property. -/
def hasAnyField (value : Json) (keys : List String) : Bool :=
  keys.any (fun key => hasOwn value key)

/-- `Number(value)` on a defined JSON value, `none` for `NaN`/non-finite
results (the script's `Number.isFinite` guard). -/
def jsNumber (p : JsPrims) : Json → Option ℚ
  | .num q => some q
  | .bool b => some (if b then 1 else 0)
  | .null => some 0
  | .str s => p.strToNumber s
  | v => p.arrObjToNumber v

/-- `safeNumber` from the script: `null`/`undefined` yield `null`; otherwise
`Number(value)`, with non-finite results mapped to `null`. -/
def safeNumber (p : JsPrims) (value : Option Json) : Option ℚ :=
  match value with
  | none => none
  | some .null => none
  | some v => jsNumber p v

/-- `pickFirstNumber(...values)` from the script: the first candidate on
which `safeNumber` succeeds, else `null`. -/
def pickFirstNumber (p : JsPrims) : List (Option Json) → Option ℚ
  | [] => none
  | c :: rest =>
    match safeNumber p c with
    | some q => some q
    | none => pickFirstNumber p rest

/-- `String(value)` on a defined JSON value.  Number formatting and
array/object stringification are runtime primitives. -/
def jsToString (p : JsPrims) : Json → String
  | .str s => s
  | .bool b => if b then "true" else "false"
  | .null => "null"
  | .num q => p.numToString q
  | v => p.otherToString v

/-- `String.prototype.toLowerCase`, modelled character-wise with the ASCII
lowering `Char.toLower` (the tag slugs the pipeline probes are ASCII). -/
def jsToLower (s : String) : String :=
  ⟨s.data.map Char.toLower⟩

/-- ECMAScript `TimeClip`: a time value is valid iff its magnitude is at most
8.64e15 ms; the stored timestamp is the argument truncated toward zero. -/
def jsDateFromMs (ms : ℚ) : Option ℤ :=
  let t : ℤ := if 0 ≤ ms then ⌊ms⌋ else ⌈ms⌉
  if |ms| ≤ (8640000000000000 : ℚ) then some t else none

/-- `parseDate` from the script: falsy input yields `null`; a number is
interpreted as epoch seconds or epoch milliseconds (disambiguated by
magnitude, threshold `1e12`); any other truthy value goes through
`new Date(value)`.  The result is the epoch-millisecond timestamp of the
parsed `Date`, or `none` for an invalid date. -/
def parseDate (p : JsPrims) (value : Option Json) : Option ℤ :=
  match value with
  | none => none
  | some v =>
    if truthy v then
      match v with
      | .num q => jsDateFromMs (if (10 ^ 12 : ℚ) < q then q else q * 1000)
      | v => p.dateFrom v
    else none

/-- `daysToExpiry` from the script, applied to a canonical record's
`endDate` (a `Date` or `null`, here `Option ℤ` of epoch ms) with the current
clock `Date.now()` made explicit as `now`:
`Math.ceil((endDate.getTime() - Date.now()) / 86400000)`. -/
def daysToExpiry (endDate : Option ℤ) (now : ℤ) : Option ℤ :=
  match endDate with
  | none => none
  | some t => some ⌈(((t - now : ℤ) : ℚ) / 86400000)⌉

/-- `percentile` from the script: sort ascending (the comparator
`(a, b) => a - b` is the numeric order; for a total order on values the
sorted rearrangement is unique, so `insertionSort` is an exact model of
`Array.prototype.sort`), then index at `floor(p * (n-1))` clamped to
`[0, n-1]`; the empty list yields 0. -/
def percentile (values : List ℚ) (p : ℚ) : ℚ :=
  if values.length = 0 then 0
  else
    let sorted := values.insertionSort (· ≤ ·)
    let idx : ℤ := max 0 (min ((sorted.length : ℤ) - 1) ⌊p * ((sorted.length : ℤ) - 1)⌋)
    sorted.getD idx.toNat 0

/-- `clamp` from the script: `Math.max(lo, Math.min(hi, value))`. -/
def clamp (value lo hi : ℚ) : ℚ :=
  max lo (min hi value)

/-- `logScore` from the script: 0 unless both the value and the reference are
strictly positive, else `clamp(maxScore * log10(1+value) / log10(1+ref), 0,
maxScore)`. -/
def logScore (p : JsPrims) (value ref maxScore : ℚ) : ℚ :=
  if ref ≤ 0 ∨ value ≤ 0 then 0
  else clamp (maxScore * (p.log10 (1 + value) / p.log10 (1 + ref))) 0 maxScore

/-- A normalized tag: `slug` (lowercased string) plus the raw display name
value (`tag.name ?? tag.slug`, an arbitrary JSON value in the script). -/
structure Tag where
  slug : String
  name : Json

/-- One entry of `normalizeTags`'s `.map`: a bare string becomes
`{slug: s.toLowerCase(), name: s}`; an object with a truthy `slug` becomes
`{slug: String(slug).toLowerCase(), name: name ?? slug}`; a nested
`{tag: {slug, name}}` wrapper is unwrapped the same way; anything else is
dropped (`null`, removed by `.filter(Boolean)`). -/
def normTag (p : JsPrims) (tag : Json) : Option Tag :=
  match tag with
  | .str s => some ⟨jsToLower s, .str s⟩
  | _ =>
    if truthyOpt (jsGetKey tag "slug") then
      some ⟨jsToLower (jsToString p ((jsGetKey tag "slug").getD .null)),
            (jsCoalesce [jsGetKey tag "name", jsGetKey tag "slug"]).getD .null⟩
    else if truthyOpt (jsGetOpt (jsGetKey tag "tag") "slug") then
      some ⟨jsToLower (jsToString p ((jsGetOpt (jsGetKey tag "tag") "slug").getD .null)),
            (jsCoalesce [jsGetOpt (jsGetKey tag "tag") "name",
                         jsGetOpt (jsGetKey tag "tag") "slug"]).getD .null⟩
    else none

/-- `normalizeTags` from the script: non-arrays yield `[]`; array elements
are normalized by `normTag` and unrecognized shapes are dropped. -/
def normalizeTags (p : JsPrims) (tags : Option Json) : List Tag :=
  match tags with
  | some (.arr xs) => xs.filterMap (normTag p)
  | _ => []

/-- `normalizeOutcomeName` from the script: a string is returned as is; an
object is probed for `name`/`title`/`outcome` (via the `in` operator, i.e.
key presence) and the found value is stringified; everything else yields
`null`.  Arrays satisfy `typeof value === "object"` but carry none of the
three keys as own or inherited properties, so they also yield `null`. -/
def normalizeOutcomeName (p : JsPrims) (value : Json) : Option String :=
  match value with
  | .str s => some s
  | .obj fields =>
    if hasOwn (.obj fields) "name" then
      some (jsToString p ((jsGetKey (.obj fields) "name").getD .null))
    else if hasOwn (.obj fields) "title" then
      some (jsToString p ((jsGetKey (.obj fields) "title").getD .null))
    else if hasOwn (.obj fields) "outcome" then
      some (jsToString p ((jsGetKey (.obj fields) "outcome").getD .null))
    else none
  | _ => none

/-- `normalizeOutcomePrices` from the script: non-arrays yield `[]`; array
elements are coerced with `safeNumber` (so an entry can itself be `null`). -/
def normalizeOutcomePrices (p : JsPrims) (prices : Option Json) : List (Option ℚ) :=
  match prices with
  | some (.arr xs) => xs.map (fun price => safeNumber p (some price))
  | _ => []

/-- `buildMarketUrl` from the script: the market slug wins, then the event
slug, else `null`. -/
def buildMarketUrl (p : JsPrims) (slug eventSlug : Option Json) : Option String :=
  if truthyOpt slug then
    some ("https://polymarket.com/market/" ++ jsToString p (slug.getD .null))
  else if truthyOpt eventSlug then
    some ("https://polymarket.com/event/" ++ jsToString p (eventSlug.getD .null))
  else none

/-- `slimEventPayload` from the script: a shallow copy of the event object
with its nested `markets` list removed; non-objects pass through (`event ??
null`).  Spreading an array copies its enumerable own properties, i.e. its
index keys. -/
def slimEventPayload (event : Json) : Json :=
  match event with
  | .obj fields => .obj (fields.filter (fun kv => !(kv.1 == "markets")))
  | .arr xs => .obj (xs.enum.map (fun ia => (toString ia.1, ia.2)))
  | v => v

/-- One normalized outcome: a name, with an optional probability. -/
structure Outcome where
  name : String
  probability : Option ℚ
deriving DecidableEq

/-- The own-key spellings probed for the open-interest provenance flag. -/
def openInterestKeys : List String :=
  ["openInterest", "open_interest", "openInterestUsd", "open_interest_usd", "openInterestUSD"]

/-- The own-key spellings probed for the resolution-source provenance flag. -/
def resolutionSourceKeys : List String :=
  ["resolutionSource", "resolution_source"]

/-- The canonical market record produced by `buildMarketRecord`.  `endDate`
is the parsed `Date` as epoch milliseconds (`none` = `null`); `slug`,
`question`, `description`, `resolutionSource` and tag display names keep
their raw JSON values as the script does. -/
structure MarketRecord where
  id : String
  eventId : Option String
  slug : Option Json
  question : Json
  description : Option Json
  resolutionSource : Option Json
  endDate : Option ℤ
  liquidity : ℚ
  volume24h : ℚ
  openInterest : ℚ
  tags : List Tag
  outcomes : Option (List Outcome)
  isMultiOutcome : Bool
  restricted : Bool
  marketUrl : Option String
  isExcluded : Bool
  rawPayload : Json × Json
  hasAleaTag : Bool
  hasOpenInterestField : Bool
  hasResolutionSourceField : Bool

/-- The optional `weights` override object of the effective score config;
`some` models key presence in `config.weights` (spread-merged over the
defaults 30/25/20/15/10). -/
structure ConfigWeights where
  resolutionIntegrity : Option ℚ := none
  liquidityMicrostructure : Option ℚ := none
  modelability : Option ℚ := none
  participationQuality : Option ℚ := none
  strategicFit : Option ℚ := none
deriving DecidableEq

/-- The optional `penalties` override object (defaults `restricted: -10`,
`missing_tags: -5`; `too_short_horizon` defaults to 0 at its use site). -/
structure ConfigPenalties where
  restricted : Option ℚ := none
  missing_tags : Option ℚ := none
  too_short_horizon : Option ℚ := none
deriving DecidableEq

/-- The optional `flags_thresholds` override object (each defaults to 0). -/
structure ConfigThresholds where
  min_liquidity : Option ℚ := none
  min_volume24h : Option ℚ := none
  min_open_interest : Option ℚ := none
deriving DecidableEq

/-- The slice of the effective configuration read by `scoreMarket`:
`weights`, `penalties`, `flags_thresholds` and `min_days_to_expiry` (numeric
fields per the config schema `config/app-config.json`). -/
structure ScoreConfig where
  weights : ConfigWeights := {}
  penalties : ConfigPenalties := {}
  flags_thresholds : ConfigThresholds := {}
  min_days_to_expiry : Option ℚ := none
deriving DecidableEq

/-- The per-run reference statistics `{liquidity, volume24h, openInterest}`. -/
structure Refs where
  liquidity : ℚ
  volume24h : ℚ
  openInterest : ℚ
deriving DecidableEq

/-- The named component map of a score result. -/
structure Components where
  resolutionIntegrity : ℚ
  liquidityMicrostructure : ℚ
  modelability : ℚ
  participationQuality : ℚ
  strategicFit : ℚ
  penalties : ℚ
deriving DecidableEq

/-- `{totalScore, components, flags}` as returned by `scoreMarket`. -/
structure ScoreResult where
  totalScore : ℚ
  components : Components
  flags : List String
deriving DecidableEq

/-- `scoreMarket(market, config, refs)` from the script.  The call
`daysToExpiry(market.endDate)` reads the ambient clock `Date.now()`, made
explicit here as the argument `now`; `Math.log10` is the `log10` field of
`p`.  Everything else is a direct transcription of the source. -/
def scoreMarket (p : JsPrims) (market : MarketRecord) (config : ScoreConfig)
    (refs : Refs) (now : ℤ) : ScoreResult :=
  let wRI := config.weights.resolutionIntegrity.getD 30
  let wLM := config.weights.liquidityMicrostructure.getD 25
  let wM := config.weights.modelability.getD 20
  let wPQ := config.weights.participationQuality.getD 15
  let wSF := config.weights.strategicFit.getD 10
  let penRestricted := config.penalties.restricted.getD (-10)
  let penMissingTags := config.penalties.missing_tags.getD (-5)
  let thMinLiquidity := config.flags_thresholds.min_liquidity.getD 0
  let thMinVolume24h := config.flags_thresholds.min_volume24h.getD 0
  let thMinOpenInterest := config.flags_thresholds.min_open_interest.getD 0
  let minDaysToExpiry := config.min_days_to_expiry.getD 0
  let hasResolutionSource := truthyOpt market.resolutionSource
  let hasEndDate := market.endDate.isSome
  let tagsPresent := !market.tags.isEmpty
  let days := daysToExpiry market.endDate now
  let resolutionIntegrity :=
    wRI * ((if hasResolutionSource then (1 : ℚ) else 0) * 0.6 +
           (if hasEndDate then (1 : ℚ) else 0) * 0.4)
  let liqScore := logScore p market.liquidity refs.liquidity (wLM * 0.6)
  let volScore := logScore p market.volume24h refs.volume24h (wLM * 0.3)
  let oiScore := logScore p market.openInterest refs.openInterest (wLM * 0.1)
  let liquidityMicrostructure := clamp (liqScore + volScore + oiScore) 0 wLM
  let modelabilitySignals :=
    (if tagsPresent then (0.5 : ℚ) else 0) +
    (if hasResolutionSource then (0.3 : ℚ) else 0) +
    (if hasEndDate then (0.2 : ℚ) else 0)
  let modelability := wM * modelabilitySignals
  let participationValue :=
    if 0 < market.openInterest then market.openInterest else market.volume24h
  let participationRef :=
    if 0 < market.openInterest then refs.openInterest else refs.volume24h
  let participationQuality := logScore p participationValue participationRef wPQ
  let strategicFit := if market.hasAleaTag then wSF else 0
  let daysShort : Bool :=
    match days with
    | some d => decide ((d : ℚ) < minDaysToExpiry)
    | none => false
  let flags : List String :=
    (if market.hasResolutionSourceField ∧ ¬hasResolutionSource then
      ["missing_resolution_source"] else []) ++
    (if ¬hasEndDate then ["missing_end_date"] else []) ++
    (if market.liquidity < thMinLiquidity then ["low_liquidity"] else []) ++
    (if market.volume24h < thMinVolume24h ∧ market.liquidity < thMinLiquidity then
      ["low_volume24h"] else []) ++
    (if market.hasOpenInterestField ∧ market.openInterest < thMinOpenInterest then
      ["weak_open_interest"] else []) ++
    (if daysShort then ["too_short_horizon"] else []) ++
    (if ¬tagsPresent then ["missing_tags"] else []) ++
    (if market.restricted then ["restricted_market"] else []) ++
    (if tagsPresent ∧ ¬market.hasAleaTag then ["not_in_alea_sectors"] else [])
  let penalty :=
    (if market.restricted then penRestricted else 0) +
    (if ¬tagsPresent then penMissingTags else 0) +
    (if daysShort then config.penalties.too_short_horizon.getD 0 else 0)
  let totalScore :=
    clamp (resolutionIntegrity + liquidityMicrostructure + modelability +
           participationQuality + strategicFit + penalty) 0 100
  { totalScore := totalScore
    components :=
      { resolutionIntegrity := resolutionIntegrity
        liquidityMicrostructure := liquidityMicrostructure
        modelability := modelability
        participationQuality := participationQuality
        strategicFit := strategicFit
        penalties := penalty }
    flags := flags }

/-- The coalesced outcome-descriptor source:
`market?.outcomes ?? market?.outcomeNames ?? market?.outcome_names ?? null`. -/
def outcomeEntriesOf (market : Json) : Option Json :=
  jsCoalesce [jsGetKey market "outcomes", jsGetKey market "outcomeNames",
              jsGetKey market "outcome_names"]

/-- `outcomeList` from the script: the descriptor array, or `[]` when the
coalesced source is not an array. -/
def outcomeListOf (market : Json) : List Json :=
  match outcomeEntriesOf market with
  | some (.arr xs) => xs
  | _ => []

/-- The coalesced outcome-price source:
`market?.outcomePrices ?? market?.outcome_prices ?? market?.outcomeTokenPrices
?? market?.outcome_token_prices ?? null`. -/
def outcomePricesRawOf (market : Json) : Option Json :=
  jsCoalesce [jsGetKey market "outcomePrices", jsGetKey market "outcome_prices",
              jsGetKey market "outcomeTokenPrices", jsGetKey market "outcome_token_prices"]

/-- `outcomeNames` from the script:
`outcomeList.map(normalizeOutcomeName).filter(Boolean)` — names that are
`null` or the falsy `""` are dropped. -/
def outcomeNamesOf (p : JsPrims) (market : Json) : List String :=
  (outcomeListOf market).filterMap (fun entry =>
    match normalizeOutcomeName p entry with
    | some n => if n = "" then none else some n
    | none => none)

/-- The inline probability of one outcome descriptor:
`entry && typeof entry === "object" ? safeNumber(entry.probability ??
entry.price ?? entry.outcomePrice ?? entry.value) : null`.  Arrays satisfy
the `typeof` test but carry none of the probed keys, so they too yield
`null`. -/
def entryProbabilityOf (p : JsPrims) (entry : Json) : Option ℚ :=
  match entry with
  | .obj fields =>
    safeNumber p (jsCoalesce
      [jsGetKey (.obj fields) "probability", jsGetKey (.obj fields) "price",
       jsGetKey (.obj fields) "outcomePrice", jsGetKey (.obj fields) "value"])
  | _ => none

/-- The `outcomes` field from the script: `null` when no descriptor yields a
usable name; otherwise each named descriptor paired with its inline
probability, falling back to the parallel price list by positional index
(`idx < outcomePrices.length ? outcomePrices[idx] : null`). -/
def buildOutcomes (p : JsPrims) (market : Json) : Option (List Outcome) :=
  let outcomePrices := normalizeOutcomePrices p (outcomePricesRawOf market)
  if outcomeNamesOf p market = [] then none
  else some ((outcomeListOf market).enum.filterMap (fun ie =>
    match normalizeOutcomeName p ie.2 with
    | none => none
    | some n =>
      if n = "" then none
      else
        let probability :=
          match entryProbabilityOf p ie.2 with
          | some q => some q
          | none => if ie.1 < outcomePrices.length then outcomePrices.getD ie.1 none else none
        some ⟨n, probability⟩))

/-- `buildMarketRecord(market, event, index, config, allowedTags,
excludeTags)` from the script, transcribed field by field.  `config` is
accepted (as in the source signature) but unused by the body. -/
def buildMarketRecord (p : JsPrims) (market event : Json) (index : ℕ)
    (config : ScoreConfig) (allowedTags excludeTags : List String) : MarketRecord :=
  let idVal : Json :=
    (jsCoalesce [jsGetKey market "id", jsGetKey market "marketId", jsGetKey market "slug",
      some (.str (jsToString p ((jsCoalesce [jsGetKey event "id", some (.str "event")]).getD .null)
                  ++ ":" ++ toString index))]).getD .null
  let slug := jsCoalesce [jsGetKey market "slug", jsGetKey market "marketSlug"]
  let eventSlug := jsCoalesce [jsGetKey event "slug", jsGetKey event "eventSlug",
                               jsGetKey event "event_slug"]
  let question : Json :=
    (jsCoalesce [jsGetKey market "question", jsGetKey market "title", jsGetKey event "title",
      some (.str "Untitled market")]).getD .null
  let description := jsCoalesce [jsGetKey market "description", jsGetKey event "description"]
  let resolutionSource :=
    jsCoalesce [jsGetKey market "resolutionSource", jsGetKey event "resolutionSource",
                jsGetKey event "resolution_source"]
  let endDate := parseDate p (jsCoalesce
    [jsGetKey market "endDate", jsGetKey market "endTime", jsGetKey market "end_time",
     jsGetKey event "endDate", jsGetKey event "endTime", jsGetKey event "end_time",
     jsGetKey event "closeTime", jsGetKey event "close_time"])
  let tags := normalizeTags p (jsCoalesce [jsGetKey market "tags", jsGetKey event "tags"])
  let tagSlugs := tags.map (fun tag => tag.slug)
  let liquidity := pickFirstNumber p
    [jsGetKey market "liquidity", jsGetKey market "liquidityUsd", jsGetKey event "liquidity",
     some (.num 0)]
  let volume24h := pickFirstNumber p
    [jsGetKey market "volume24h", jsGetKey market "volume24hr", jsGetKey market "volume24Hour",
     jsGetKey event "volume24h", jsGetKey event "volume24hr", some (.num 0)]
  let openInterest := pickFirstNumber p
    [jsGetKey market "openInterest", jsGetKey market "open_interest",
     jsGetKey market "openInterestUsd", jsGetKey market "open_interest_usd",
     jsGetKey market "openInterestUSD", jsGetKey event "openInterest", some (.num 0)]
  let outcomes := buildOutcomes p market
  let outcomesCount := match outcomes with | some l => l.length | none => 0
  { id := jsToString p idVal
    eventId :=
      match jsGetKey event "id" with
      | some v => if truthy v then some (jsToString p v) else none
      | none => none
    slug := slug
    question := question
    description := description
    resolutionSource := resolutionSource
    endDate := endDate
    liquidity := liquidity.getD 0
    volume24h := volume24h.getD 0
    openInterest := openInterest.getD 0
    tags := tags
    outcomes := outcomes
    isMultiOutcome := decide (2 < outcomesCount)
    restricted := false
    marketUrl := buildMarketUrl p slug eventSlug
    isExcluded := tagSlugs.any (fun s => excludeTags.contains s)
    rawPayload := (slimEventPayload event, market)
    hasAleaTag := tagSlugs.any (fun s => allowedTags.contains s)
    hasOpenInterestField :=
      hasAnyField market openInterestKeys || hasAnyField event openInterestKeys
    hasResolutionSourceField :=
      hasAnyField market resolutionSourceKeys || hasAnyField event resolutionSourceKeys }

/-- The reference-statistics step of `runSync` (its lines building
`liquidityValues`/`volumeValues`/`oiValues` and `refs`): for each metric,
collect the strictly positive values over the working set and take the
configured percentile. -/
def computeRefs (markets : List MarketRecord) (refPercentile : ℚ) : Refs :=
  { liquidity := percentile ((markets.map (fun m => m.liquidity)).filter (fun v => 0 < v)) refPercentile
    volume24h := percentile ((markets.map (fun m => m.volume24h)).filter (fun v => 0 < v)) refPercentile
    openInterest := percentile ((markets.map (fun m => m.openInterest)).filter (fun v => 0 < v)) refPercentile }

/-- The externally-visible steps of one `runSync` invocation, in source
order: read the config file, create the Prisma client + pg pool, read the
stored config override (`scoreConfig.findUnique`), write the initial
attempted-status record (`syncStatus.upsert`), fetch the catalog, process
and upsert all markets, write the success status, write the failure status
(catch block), `prisma.$disconnect()`, and `pool.end()`. -/
inductive SyncStep where
  | readConfig : SyncStep
  | createClient : SyncStep
  | findDbConfig : SyncStep
  | initialUpsert : SyncStep
  | fetchEvents : SyncStep
  | processMarkets : SyncStep
  | successUpdate : SyncStep
  | errorUpdate : SyncStep
  | disconnect : SyncStep
  | poolEnd : SyncStep
deriving DecidableEq

/-- The singleton `SyncStatus` row (`lastStats` is the `{events, markets}`
pair). -/
structure SyncStatusRow where
  lastAttemptedSyncAt : Option ℤ
  lastSuccessfulSyncAt : Option ℤ
  lastError : Option String
  lastStats : Option (ℕ × ℕ)
  lastRefs : Option Refs
deriving DecidableEq

deriving instance DecidableEq for Except

/-- The observable outcome of a `runSync` invocation: the steps that were
attempted (in order), the final state of the `SyncStatus` row (`none` if it
never came to exist), and the returned/raised result. -/
structure SyncOutcome where
  trace : List SyncStep
  status : Option SyncStatusRow
  result : Except String Unit
deriving DecidableEq

/-- The initial `syncStatus.upsert`: update `{lastAttemptedSyncAt: startedAt,
lastError: null}` when the row exists, else create it with those fields and
the rest at their defaults. -/
def applyInitialUpsert (init : Option SyncStatusRow) (startedAt : ℤ) : SyncStatusRow :=
  match init with
  | some row => { row with lastAttemptedSyncAt := some startedAt, lastError := none }
  | none =>
    { lastAttemptedSyncAt := some startedAt, lastSuccessfulSyncAt := none,
      lastError := none, lastStats := none, lastRefs := none }

/-- The success-path `syncStatus.update`: write `lastSuccessfulSyncAt`,
clear `lastError`, and record the run stats and refs. -/
def applySuccessUpdate (row : SyncStatusRow) (now : ℤ) (stats : ℕ × ℕ)
    (refs : Refs) : SyncStatusRow :=
  { row with lastSuccessfulSyncAt := some now, lastError := none,
             lastStats := some stats, lastRefs := some refs }

/-- The `catch`/`finally` tail of `runSync`.  `caught` is the exception
raised in the `try` body (`none` on success).  The catch block performs the
failure-status write (touching only `lastError`) and re-raises; if that
write itself throws, its error propagates instead and the status row is
unchanged.  The `finally` block then runs `prisma.$disconnect()` followed by
`pool.end()`; an exception in either replaces the pending result. -/
def catchAndCleanup (fail : SyncStep → Option String) (trace0 : List SyncStep)
    (row : SyncStatusRow) (caught : Option String) : SyncOutcome :=
  let afterCatch : List SyncStep × SyncStatusRow × Option String :=
    match caught with
    | none => (trace0, row, none)
    | some e =>
      match fail .errorUpdate with
      | some e2 => (trace0 ++ [.errorUpdate], row, some e2)
      | none => (trace0 ++ [.errorUpdate], { row with lastError := some e }, some e)
  match fail .disconnect with
  | some e3 => ⟨afterCatch.1 ++ [.disconnect], some afterCatch.2.1, .error e3⟩
  | none =>
    match fail .poolEnd with
    | some e4 => ⟨afterCatch.1 ++ [.disconnect, .poolEnd], some afterCatch.2.1, .error e4⟩
    | none =>
      ⟨afterCatch.1 ++ [.disconnect, .poolEnd], some afterCatch.2.1,
       match afterCatch.2.2 with
       | some e => .error e
       | none => .ok ()⟩

/-- The trace prefix once the four pre-`try` statements have succeeded. -/
def tracePre : List SyncStep :=
  [.readConfig, .createClient, .findDbConfig, .initialUpsert]

/-- Step model of `runSync`'s effect sequence.  `fail s = some e` means step
`s`, when attempted, throws an exception with message `e`.  The config-file
read, client creation, stored-config read and initial status upsert all
execute *before* the `try`, so an exception there propagates without
reaching the `finally` cleanup; the fetch/process/success-update phase runs
inside `try { … } catch { errorUpdate; rethrow } finally { disconnect;
poolEnd }`.  `startedAt` is the timestamp taken at entry, `now` the one
taken before the batch writes; `stats`/`refs` abstract the run's computed
artifacts; `init` is the pre-existing `SyncStatus` row, if any. -/
def runSyncModel (fail : SyncStep → Option String) (startedAt now : ℤ)
    (init : Option SyncStatusRow) (stats : ℕ × ℕ) (refs : Refs) : SyncOutcome :=
  match fail .readConfig with
  | some e => ⟨[.readConfig], init, .error e⟩
  | none =>
  match fail .createClient with
  | some e => ⟨[.readConfig, .createClient], init, .error e⟩
  | none =>
  match fail .findDbConfig with
  | some e => ⟨[.readConfig, .createClient, .findDbConfig], init, .error e⟩
  | none =>
  match fail .initialUpsert with
  | some e => ⟨tracePre, init, .error e⟩
  | none =>
  let row := applyInitialUpsert init startedAt
  match fail .fetchEvents with
  | some e => catchAndCleanup fail (tracePre ++ [.fetchEvents]) row (some e)
  | none =>
  match fail .processMarkets with
  | some e => catchAndCleanup fail (tracePre ++ [.fetchEvents, .processMarkets]) row (some e)
  | none =>
  match fail .successUpdate with
  | some e =>
    catchAndCleanup fail (tracePre ++ [.fetchEvents, .processMarkets, .successUpdate]) row (some e)
  | none =>
    catchAndCleanup fail (tracePre ++ [.fetchEvents, .processMarkets, .successUpdate])
      (applySuccessUpdate row now stats refs) none

/-- A placeholder instantiation of the runtime primitives, used only to
state closed concrete-input theorems; those inputs are chosen so that none
of the placeholder fields is ever consulted on a value where its result
matters. -/
def dummyPrims : JsPrims :=
  { strToNumber := fun _ => none
    arrObjToNumber := fun _ => none
    dateFrom := fun _ => none
    numToString := fun _ => ""
    otherToString := fun _ => ""
    log10 := fun _ => 0 }

/-- `Array.isArray(value)` on a possibly-undefined value. -/
def jsIsArray : Option Json → Bool
  | some (.arr _) => true
  | _ => false

/-- A canonical record with every field at its absent/zero representation;
concrete fixtures below override individual fields. -/
def baseRecord : MarketRecord :=
  { id := "m1", eventId := none, slug := none, question := .null, description := none,
    resolutionSource := none, endDate := none, liquidity := 0, volume24h := 0,
    openInterest := 0, tags := [], outcomes := none, isMultiOutcome := false,
    restricted := false, marketUrl := none, isExcluded := false,
    rawPayload := (.null, .null), hasAleaTag := false, hasOpenInterestField := false,
    hasResolutionSourceField := false }

/-- The empty list yields a reference of 0. -/
theorem percentile_nil (p : ℚ) : percentile [] p = 0 := by
  simp [percentile]

/-- For every list and every percentile, the clamped-index lookup lands
inside the sorted list, so the result is one of the input values. -/
theorem percentile_mem (values : List ℚ) (p : ℚ) (h : values ≠ []) :
    percentile values p ∈ values := by
  unfold percentile
  have hlen0 : values.length ≠ 0 := by simpa using h
  rw [if_neg hlen0]
  have hlen : (values.insertionSort (· ≤ ·)).length = values.length :=
    List.length_insertionSort _ _
  set sorted := values.insertionSort (· ≤ ·) with hs
  set idx : ℤ := max 0 (min ((sorted.length : ℤ) - 1) ⌊p * ((sorted.length : ℤ) - 1)⌋) with hidx
  have h0 : 0 ≤ idx := le_max_left _ _
  have h1 : idx ≤ (sorted.length : ℤ) - 1 := by
    have hL : 1 ≤ sorted.length := by omega
    apply max_le
    · exact_mod_cast by omega
    · exact min_le_left _ _
  have hlt : idx.toNat < sorted.length := by omega
  rw [List.getD_eq_getElem?_getD, List.getElem?_eq_getElem hlt]
  have hmem : sorted[idx.toNat] ∈ sorted := List.getElem_mem _
  simpa using ((List.perm_insertionSort (· ≤ ·) values).mem_iff).mp hmem

/-- For `p ∈ [0,1]` and a nonempty list the clamp is a no-op: the result is
the sorted list's element at index `⌊p * (n-1)⌋` exactly. -/
theorem percentile_eq_floor_index (values : List ℚ) (p : ℚ) (h : values ≠ [])
    (hp0 : 0 ≤ p) (hp1 : p ≤ 1) :
    percentile values p
      = (values.insertionSort (· ≤ ·)).getD (⌊p * ((values.length : ℤ) - 1)⌋).toNat 0 := by
  unfold percentile
  have hlen0 : values.length ≠ 0 := by simpa using h
  rw [if_neg hlen0]
  simp only [List.length_insertionSort]
  have hL : 1 ≤ values.length := by omega
  have hL1 : (1 : ℚ) ≤ (((values.length : ℤ) : ℚ)) := by exact_mod_cast hL
  have hcast : (0 : ℚ) ≤ (((values.length : ℤ) : ℚ)) - 1 := by linarith
  have hf0 : 0 ≤ ⌊p * ((((values.length : ℤ) : ℚ)) - 1)⌋ :=
    Int.floor_nonneg.mpr (mul_nonneg hp0 hcast)
  have hf1 : ⌊p * ((((values.length : ℤ) : ℚ)) - 1)⌋ ≤ (values.length : ℤ) - 1 := by
    have hmul : p * ((((values.length : ℤ) : ℚ)) - 1) ≤ (((values.length : ℤ) : ℚ)) - 1 :=
      mul_le_of_le_one_left hcast hp1
    have h2 : ((((values.length : ℤ) : ℚ)) - 1) = (((values.length : ℤ) - 1 : ℤ) : ℚ) := by
      push_cast
      ring
    calc ⌊p * ((((values.length : ℤ) : ℚ)) - 1)⌋
        ≤ ⌊(((values.length : ℤ) : ℚ)) - 1⌋ := Int.floor_le_floor hmul
      _ = ⌊(((values.length : ℤ) - 1 : ℤ) : ℚ)⌋ := by rw [h2]
      _ = (values.length : ℤ) - 1 := Int.floor_intCast _
  have hidx : max 0 (min ((values.length : ℤ) - 1) ⌊p * ((((values.length : ℤ) : ℚ)) - 1)⌋)
      = ⌊p * ((((values.length : ℤ) : ℚ)) - 1)⌋ := by omega
  rw [hidx]

/-- C4: for every list of metric values and every percentile `p ∈ [0,1]`,
the reference-statistics computation takes the strictly-positive values,
sorts ascending and returns the element at index `⌊p * (n-1)⌋` (the clamp to
`[0, n-1]` being a no-op for such `p`); an empty positive-value set yields 0;
consequently each reference is a member of its positive-value set or 0 —
never an interpolated or extrapolated value. -/
theorem computeRefs_within_observed (markets : List MarketRecord) (p : ℚ)
    (hp0 : 0 ≤ p) (hp1 : p ≤ 1) :
    ((computeRefs markets p).liquidity
        ∈ (markets.map (fun m => m.liquidity)).filter (fun v => 0 < v)
      ∨ (computeRefs markets p).liquidity = 0) ∧
    ((computeRefs markets p).volume24h
        ∈ (markets.map (fun m => m.volume24h)).filter (fun v => 0 < v)
      ∨ (computeRefs markets p).volume24h = 0) ∧
    ((computeRefs markets p).openInterest
        ∈ (markets.map (fun m => m.openInterest)).filter (fun v => 0 < v)
      ∨ (computeRefs markets p).openInterest = 0) ∧
    (∀ values : List ℚ, values ≠ [] →
      percentile values p
        = (values.insertionSort (· ≤ ·)).getD (⌊p * ((values.length : ℤ) - 1)⌋).toNat 0) ∧
    percentile [] p = 0 := by
  refine ⟨?_, ?_, ?_, fun values hv => percentile_eq_floor_index values p hv hp0 hp1,
          percentile_nil p⟩
  · by_cases h : (markets.map (fun m => m.liquidity)).filter (fun v => 0 < v) = []
    · exact Or.inr (by simp [computeRefs, h, percentile_nil])
    · exact Or.inl (percentile_mem _ p h)
  · by_cases h : (markets.map (fun m => m.volume24h)).filter (fun v => 0 < v) = []
    · exact Or.inr (by simp [computeRefs, h, percentile_nil])
    · exact Or.inl (percentile_mem _ p h)
  · by_cases h : (markets.map (fun m => m.openInterest)).filter (fun v => 0 < v) = []
    · exact Or.inr (by simp [computeRefs, h, percentile_nil])
    · exact Or.inl (percentile_mem _ p h)

/-- C4 witness: the theorem applied at a one-record catalog with liquidity 5
and the default reference percentile 0.9. -/
theorem computeRefs_within_observed_witness :
    ((computeRefs [{ baseRecord with liquidity := 5 }] (9/10)).liquidity
        ∈ (([{ baseRecord with liquidity := 5 }] :
              List MarketRecord).map (fun m => m.liquidity)).filter (fun v => 0 < v)
      ∨ (computeRefs [{ baseRecord with liquidity := 5 }] (9/10)).liquidity = 0) ∧
    percentile [] (9/10 : ℚ) = 0 :=
  ⟨(computeRefs_within_observed [{ baseRecord with liquidity := 5 }] (9/10)
      (by norm_num) (by norm_num)).1,
   (computeRefs_within_observed [{ baseRecord with liquidity := 5 }] (9/10)
      (by norm_num) (by norm_num)).2.2.2.2⟩

/-- Membership in one conditional flag segment `cond ? [s] : []`. -/
theorem mem_flagIf {c : Prop} [Decidable c] {a s : String} :
    a ∈ (if c then [s] else ([] : List String)) ↔ c ∧ a = s := by
  by_cases h : c
  · simp [h]
  · simp [h]

/-- C1 counterexample: one canonical record, config and refs, scored at two
different clock instants (`Date.now()` = 0 and = day 8), yield different
`ScoreResult`s — the record expires at day 10 and `min_days_to_expiry` is 5,
so only the second evaluation emits `too_short_horizon`.  `scoreMarket` is
therefore not a function of `(record, config, refs)` alone. -/
theorem scoreMarket_clock_dependence_cx :
    scoreMarket dummyPrims { baseRecord with endDate := some 864000000 }
        { min_days_to_expiry := some 5 } ⟨0, 0, 0⟩ 0
      ≠ scoreMarket dummyPrims { baseRecord with endDate := some 864000000 }
        { min_days_to_expiry := some 5 } ⟨0, 0, 0⟩ 691200000 := by
  intro h
  have hf := congrArg ScoreResult.flags h
  norm_num [scoreMarket, daysToExpiry, dummyPrims, baseRecord, truthyOpt, truthy,
    logScore, clamp] at hf

/-- C1 (amended): `scoreMarket` is a deterministic, pure function of the
record, config, refs *and* the evaluation-time clock, and the clock enters
only through `daysToExpiry(market.endDate)`: two evaluations at times where
that day-count agrees (in particular at equal times, or whenever the record
has no end date) return identical `ScoreResult`s. -/
theorem scoreMarket_deterministic_given_clock (p : JsPrims) (market : MarketRecord)
    (config : ScoreConfig) (refs : Refs) (t1 t2 : ℤ)
    (h : daysToExpiry market.endDate t1 = daysToExpiry market.endDate t2) :
    scoreMarket p market config refs t1 = scoreMarket p market config refs t2 := by
  unfold scoreMarket
  rw [h]

/-- C1 witness: a record without an end date scores identically at time 0
and at day 8. -/
theorem scoreMarket_deterministic_given_clock_witness :
    daysToExpiry baseRecord.endDate 0 = daysToExpiry baseRecord.endDate 691200000 ∧
    scoreMarket dummyPrims baseRecord {} ⟨0, 0, 0⟩ 0
      = scoreMarket dummyPrims baseRecord {} ⟨0, 0, 0⟩ 691200000 :=
  ⟨rfl, scoreMarket_deterministic_given_clock dummyPrims baseRecord {} ⟨0, 0, 0⟩ 0
    691200000 rfl⟩

/-- C8 counterexample: a record with `volume24h = 0` below the configured
`min_volume24h = 5` but `liquidity = 10` not below `min_liquidity = 5` does
*not* receive the `low_volume24h` flag — the source conjoins the volume
test with `liquidity < min_liquidity`, so the flag does not depend on the
volume metric and its own threshold alone. -/
theorem low_volume24h_flag_cx :
    ({ baseRecord with liquidity := 10 } : MarketRecord).volume24h
        < ((({ flags_thresholds := { min_liquidity := some 5, min_volume24h := some 5 } } :
            ScoreConfig).flags_thresholds.min_volume24h).getD 0) ∧
    "low_volume24h" ∉ (scoreMarket dummyPrims { baseRecord with liquidity := 10 }
        { flags_thresholds := { min_liquidity := some 5, min_volume24h := some 5 } }
        ⟨0, 0, 0⟩ 0).flags := by
  decide

/-- C8 (amended): `low_volume24h` is emitted exactly when the record's
`volume24h` is below the configured `min_volume24h` *and* its `liquidity`
is below `min_liquidity`. -/
theorem low_volume24h_flag_iff (p : JsPrims) (market : MarketRecord)
    (config : ScoreConfig) (refs : Refs) (now : ℤ) :
    "low_volume24h" ∈ (scoreMarket p market config refs now).flags
      ↔ (market.volume24h < config.flags_thresholds.min_volume24h.getD 0
          ∧ market.liquidity < config.flags_thresholds.min_liquidity.getD 0) := by
  simp [scoreMarket, List.mem_append, mem_flagIf]

/-- C2 counterexample: an upstream child record carrying none of the
liquidity or volume field spellings (and a parent of `null`) coerces both
metrics to 0, and the scorer *does* emit `low_liquidity` and `low_volume24h`
against positive thresholds — those two threshold flags are not
provenance-gated (the record has no liquidity/volume provenance flag at
all); only the open-interest flag is. -/
theorem threshold_flags_not_provenance_gated_cx :
    hasAnyField (Json.obj [("id", Json.str "m1")]) ["liquidity", "liquidityUsd"] = false ∧
    hasAnyField Json.null ["liquidity"] = false ∧
    hasAnyField (Json.obj [("id", Json.str "m1")])
      ["volume24h", "volume24hr", "volume24Hour"] = false ∧
    (buildMarketRecord dummyPrims (Json.obj [("id", Json.str "m1")]) Json.null 0 {} [] []).liquidity = 0 ∧
    (buildMarketRecord dummyPrims (Json.obj [("id", Json.str "m1")]) Json.null 0 {} [] []).volume24h = 0 ∧
    "low_liquidity" ∈ (scoreMarket dummyPrims
      (buildMarketRecord dummyPrims (Json.obj [("id", Json.str "m1")]) Json.null 0 {} [] [])
      { flags_thresholds := { min_liquidity := some 5, min_volume24h := some 5,
                              min_open_interest := some 5 } } ⟨0, 0, 0⟩ 0).flags ∧
    "low_volume24h" ∈ (scoreMarket dummyPrims
      (buildMarketRecord dummyPrims (Json.obj [("id", Json.str "m1")]) Json.null 0 {} [] [])
      { flags_thresholds := { min_liquidity := some 5, min_volume24h := some 5,
                              min_open_interest := some 5 } } ⟨0, 0, 0⟩ 0).flags := by
  decide

/-- C2 (amended): the only provenance-gated threshold flag is
`weak_open_interest` — for every record whose `hasOpenInterestField` is
false, that flag is never emitted, even when the (defaulted-to-0) open
interest is numerically below the configured threshold. -/
theorem weak_open_interest_provenance_gated (p : JsPrims) (market : MarketRecord)
    (config : ScoreConfig) (refs : Refs) (now : ℤ)
    (h : market.hasOpenInterestField = false) :
    "weak_open_interest" ∉ (scoreMarket p market config refs now).flags := by
  simp [scoreMarket, List.mem_append, mem_flagIf, h]

/-- C2 witness: a record with the open-interest field absent and open
interest 0 below the threshold 5 is not flagged. -/
theorem weak_open_interest_provenance_gated_witness :
    baseRecord.hasOpenInterestField = false ∧
    "weak_open_interest" ∉ (scoreMarket dummyPrims baseRecord
      { flags_thresholds := { min_open_interest := some 5 } } ⟨0, 0, 0⟩ 0).flags :=
  ⟨rfl, weak_open_interest_provenance_gated dummyPrims baseRecord
    { flags_thresholds := { min_open_interest := some 5 } } ⟨0, 0, 0⟩ 0 rfl⟩

/-- C10: every canonical record produced by the normalizer has
`restricted = false` (the source hard-codes it), so the scorer never emits
`restricted_market` for such a record, and the configured `restricted`
penalty never influences the result (the score is invariant under changing
it). -/
theorem restricted_never_set_never_penalized (p : JsPrims) (market event : Json)
    (index : ℕ) (cfg : ScoreConfig) (allowed excluded : List String)
    (config : ScoreConfig) (refs : Refs) (now : ℤ) :
    (buildMarketRecord p market event index cfg allowed excluded).restricted = false ∧
    "restricted_market" ∉ (scoreMarket p
      (buildMarketRecord p market event index cfg allowed excluded) config refs now).flags ∧
    (∀ x : ℚ, scoreMarket p (buildMarketRecord p market event index cfg allowed excluded)
        { config with penalties := { config.penalties with restricted := some x } } refs now
      = scoreMarket p (buildMarketRecord p market event index cfg allowed excluded)
        config refs now) := by
  have hr : (buildMarketRecord p market event index cfg allowed excluded).restricted = false := rfl
  refine ⟨hr, ?_, ?_⟩
  · simp [scoreMarket, List.mem_append, mem_flagIf, hr]
  · intro x
    simp [scoreMarket, hr]

/-- A `Nat` below the surrogate range is a valid scalar value, and
`Char.ofNat` then round-trips through `toNat`. -/
theorem toNat_ofNat_of_valid {n : ℕ} (hv : n.isValidChar) :
    (Char.ofNat n).toNat = n := by
  rw [Char.ofNat, dif_pos hv]
  rfl

/-- The ASCII lowering is idempotent on characters. -/
theorem charToLower_fixed (c : Char) : Char.toLower (Char.toLower c) = Char.toLower c := by
  unfold Char.toLower
  by_cases h : 65 ≤ c.toNat ∧ c.toNat ≤ 90
  · rw [if_pos h]
    have hv : (c.toNat + 32).isValidChar := Or.inl (by omega)
    have ht : (Char.ofNat (c.toNat + 32)).toNat = c.toNat + 32 := toNat_ofNat_of_valid hv
    rw [if_neg]
    rw [ht]
    omega
  · rw [if_neg h, if_neg h]

/-- `toLowerCase` is idempotent, so "is lowercased" can be stated as being a
fixed point of `jsToLower`. -/
theorem jsToLower_idem (s : String) : jsToLower (jsToLower s) = jsToLower s := by
  unfold jsToLower
  have hfun : (Char.toLower ∘ Char.toLower) = Char.toLower := funext charToLower_fixed
  show String.mk ((s.data.map Char.toLower).map Char.toLower)
      = String.mk (s.data.map Char.toLower)
  rw [List.map_map, hfun]

/-- Every slug produced by `normalizeTags` is a fixed point of the
lowercasing. -/
theorem normalizeTags_slug_lower (p : JsPrims) (v : Option Json) (s : String)
    (hs : s ∈ (normalizeTags p v).map (fun t => t.slug)) : jsToLower s = s := by
  simp only [List.mem_map] at hs
  obtain ⟨t, ht, rfl⟩ := hs
  match v with
  | none => simp [normalizeTags] at ht
  | some .null => simp [normalizeTags] at ht
  | some (.bool b) => simp [normalizeTags] at ht
  | some (.num q) => simp [normalizeTags] at ht
  | some (.str sv) => simp [normalizeTags] at ht
  | some (.obj fs) => simp [normalizeTags] at ht
  | some (.arr xs) =>
    simp only [normalizeTags, List.mem_filterMap] at ht
    obtain ⟨x, _, hx⟩ := ht
    unfold normTag at hx
    match x with
    | .str sx =>
      simp only [Option.some.injEq] at hx
      rw [← hx]
      exact jsToLower_idem sx
    | .null | .bool _ | .num _ | .arr _ | .obj _ =>
      simp only at hx
      split at hx
      · simp only [Option.some.injEq] at hx
        rw [← hx]
        exact jsToLower_idem _
      · split at hx
        · simp only [Option.some.injEq] at hx
          rw [← hx]
          exact jsToLower_idem _
        · simp at hx

/-- C6 counterexample: upstream tags `["Politics", "politics"]` normalize to
two entries that share the slug `"politics"` — `normalizeTags` lowercases
but performs no deduplication, so slug uniqueness does not hold on the
canonical record. -/
theorem tag_slugs_not_deduplicated_cx :
    ((buildMarketRecord dummyPrims
        (Json.obj [("tags", Json.arr [Json.str "Politics", Json.str "politics"])])
        Json.null 0 {} [] []).tags.map (fun t => t.slug)) = ["politics", "politics"] ∧
    ¬ ((buildMarketRecord dummyPrims
        (Json.obj [("tags", Json.arr [Json.str "Politics", Json.str "politics"])])
        Json.null 0 {} [] []).tags.map (fun t => t.slug)).Nodup := by
  decide

/-- C6 (amended): every tag slug on a canonical record is lowercased (a
fixed point of `toLowerCase`); duplicate slugs, however, are preserved. -/
theorem record_tag_slugs_lowercased (p : JsPrims) (market event : Json) (index : ℕ)
    (cfg : ScoreConfig) (allowed excluded : List String) (s : String)
    (hs : s ∈ ((buildMarketRecord p market event index cfg allowed excluded).tags.map
      (fun t => t.slug))) :
    jsToLower s = s :=
  normalizeTags_slug_lower p (jsCoalesce [jsGetKey market "tags", jsGetKey event "tags"]) s hs

/-- C6 witness: the upstream tag `"ABC"` yields the slug `"abc"`, which is
its own lowercase. -/
theorem record_tag_slugs_lowercased_witness :
    "abc" ∈ ((buildMarketRecord dummyPrims (Json.obj [("tags", Json.arr [Json.str "ABC"])])
        Json.null 0 {} [] []).tags.map (fun t => t.slug)) ∧
    jsToLower "abc" = "abc" :=
  ⟨by decide,
   record_tag_slugs_lowercased dummyPrims (Json.obj [("tags", Json.arr [Json.str "ABC"])])
     Json.null 0 {} [] [] "abc" (by decide)⟩

/-- Non-array (or absent) tag sources normalize to the empty tag list. -/
theorem normalizeTags_eq_nil (p : JsPrims) (v : Option Json) (h : jsIsArray v = false) :
    normalizeTags p v = [] := by
  unfold normalizeTags
  split
  · simp_all [jsIsArray]
  · rfl

/-- A non-array outcome-descriptor source yields the empty descriptor list. -/
theorem outcomeListOf_eq_nil (market : Json) (h : jsIsArray (outcomeEntriesOf market) = false) :
    outcomeListOf market = [] := by
  unfold outcomeListOf
  split
  · simp_all [jsIsArray]
  · rfl

/-- C7 counterexample: a child market whose descriptor list has exactly two
entries, neither carrying a name (`{}`, `{}`), with a parallel two-element
price list, normalizes to `outcomes = null` — not to a `["Yes","No"]`
default.  (That default exists only in the downstream snapshot layer
`runtime-sync-cache.ts`, outside the normalizer.) -/
theorem two_outcome_no_name_cx :
    (outcomeListOf (Json.obj [("outcomes", Json.arr [Json.obj [], Json.obj []]),
        ("outcomePrices", Json.arr [Json.num 1, Json.num 0])])).length = 2 ∧
    (∀ e ∈ outcomeListOf (Json.obj [("outcomes", Json.arr [Json.obj [], Json.obj []]),
        ("outcomePrices", Json.arr [Json.num 1, Json.num 0])]),
      normalizeOutcomeName dummyPrims e = none) ∧
    (buildMarketRecord dummyPrims (Json.obj [("outcomes", Json.arr [Json.obj [], Json.obj []]),
        ("outcomePrices", Json.arr [Json.num 1, Json.num 0])])
      Json.null 0 {} [] []).outcomes = none := by
  decide

/-- C7 (amended): whenever no outcome descriptor yields a usable name — in
particular for a 2-outcome market carrying no names — normalization leaves
the `outcomes` field absent (`null`); no Yes/No default is applied. -/
theorem no_name_outcomes_absent (p : JsPrims) (market event : Json) (index : ℕ)
    (cfg : ScoreConfig) (allowed excluded : List String)
    (h : outcomeNamesOf p market = []) :
    (buildMarketRecord p market event index cfg allowed excluded).outcomes = none := by
  have hrec : (buildMarketRecord p market event index cfg allowed excluded).outcomes
      = buildOutcomes p market := rfl
  rw [hrec]
  unfold buildOutcomes
  rw [if_pos h]

/-- C7 witness: the two-descriptor no-name market above has an empty
usable-name list, so its outcomes are absent. -/
theorem no_name_outcomes_absent_witness :
    outcomeNamesOf dummyPrims (Json.obj [("outcomes", Json.arr [Json.obj [], Json.obj []]),
        ("outcomePrices", Json.arr [Json.num 1, Json.num 0])]) = [] ∧
    (buildMarketRecord dummyPrims (Json.obj [("outcomes", Json.arr [Json.obj [], Json.obj []]),
        ("outcomePrices", Json.arr [Json.num 1, Json.num 0])])
      Json.null 0 {} [] []).outcomes = none :=
  ⟨by decide,
   no_name_outcomes_absent dummyPrims
     (Json.obj [("outcomes", Json.arr [Json.obj [], Json.obj []]),
        ("outcomePrices", Json.arr [Json.num 1, Json.num 0])])
     Json.null 0 {} [] [] (by decide)⟩

/-- C5: normalization is total — for arbitrary JSON child and parent
payloads (of any shape) `buildMarketRecord` returns a canonical record, and
malformed fields degrade to their absent representation rather than
aborting: a non-array tag source yields `tags = []`, an unparseable date
chain yields `endDate = null`, liquidity candidates that all coerce to
`NaN`/absent yield the default 0, and a non-array outcome source yields
`outcomes = null`. -/
theorem buildMarketRecord_total_degrades (p : JsPrims) (market event : Json)
    (index : ℕ) (cfg : ScoreConfig) (allowed excluded : List String) :
    ∃ rec : MarketRecord,
      buildMarketRecord p market event index cfg allowed excluded = rec ∧
      (jsIsArray (jsCoalesce [jsGetKey market "tags", jsGetKey event "tags"]) = false →
        rec.tags = []) ∧
      (parseDate p (jsCoalesce
          [jsGetKey market "endDate", jsGetKey market "endTime", jsGetKey market "end_time",
           jsGetKey event "endDate", jsGetKey event "endTime", jsGetKey event "end_time",
           jsGetKey event "closeTime", jsGetKey event "close_time"]) = none →
        rec.endDate = none) ∧
      (safeNumber p (jsGetKey market "liquidity") = none →
       safeNumber p (jsGetKey market "liquidityUsd") = none →
       safeNumber p (jsGetKey event "liquidity") = none →
        rec.liquidity = 0) ∧
      (jsIsArray (outcomeEntriesOf market) = false → rec.outcomes = none) := by
  refine ⟨_, rfl, ?_, ?_, ?_, ?_⟩
  · intro h
    show normalizeTags p _ = []
    exact normalizeTags_eq_nil p _ h
  · intro h
    show parseDate p _ = none
    exact h
  · intro h1 h2 h3
    show (pickFirstNumber p _).getD 0 = 0
    simp only [pickFirstNumber, h1, h2, h3]
    rfl
  · intro h
    show buildOutcomes p market = none
    unfold buildOutcomes outcomeNamesOf
    rw [outcomeListOf_eq_nil market h]
    simp

/-- C5 witness: a payload with tags of the wrong type, an unparseable date
string, a non-numeric liquidity string and a boolean outcomes field
normalizes with every such field at its absent representation. -/
theorem buildMarketRecord_total_degrades_witness :
    (buildMarketRecord dummyPrims
      (Json.obj [("tags", Json.num 7), ("endDate", Json.str "garbage"),
                 ("liquidity", Json.str "oops"), ("outcomes", Json.bool true)])
      Json.null 0 {} [] []).tags = [] ∧
    (buildMarketRecord dummyPrims
      (Json.obj [("tags", Json.num 7), ("endDate", Json.str "garbage"),
                 ("liquidity", Json.str "oops"), ("outcomes", Json.bool true)])
      Json.null 0 {} [] []).endDate = none ∧
    (buildMarketRecord dummyPrims
      (Json.obj [("tags", Json.num 7), ("endDate", Json.str "garbage"),
                 ("liquidity", Json.str "oops"), ("outcomes", Json.bool true)])
      Json.null 0 {} [] []).liquidity = 0 ∧
    (buildMarketRecord dummyPrims
      (Json.obj [("tags", Json.num 7), ("endDate", Json.str "garbage"),
                 ("liquidity", Json.str "oops"), ("outcomes", Json.bool true)])
      Json.null 0 {} [] []).outcomes = none := by
  obtain ⟨rec, hrec, h1, h2, h3, h4⟩ := buildMarketRecord_total_degrades dummyPrims
    (Json.obj [("tags", Json.num 7), ("endDate", Json.str "garbage"),
               ("liquidity", Json.str "oops"), ("outcomes", Json.bool true)])
    Json.null 0 {} [] []
  rw [hrec]
  exact ⟨h1 (by decide), h2 (by decide), h3 (by decide) (by decide) (by decide), h4 (by decide)⟩

/-- Any control path that reaches the `try` body's `catch`/`finally` tail
attempts `prisma.$disconnect()`, and also `pool.end()` provided the
disconnect itself does not throw. -/
theorem catchAndCleanup_mem (fail : SyncStep → Option String) (trace0 : List SyncStep)
    (row : SyncStatusRow) (caught : Option String) :
    SyncStep.disconnect ∈ (catchAndCleanup fail trace0 row caught).trace ∧
    (fail .disconnect = none →
      SyncStep.poolEnd ∈ (catchAndCleanup fail trace0 row caught).trace) := by
  unfold catchAndCleanup
  rcases caught with _ | e <;>
    rcases he : fail .errorUpdate with _ | e2 <;>
      rcases hd : fail .disconnect with _ | e3 <;>
        rcases hp : fail .poolEnd with _ | e4 <;>
          simp_all

/-- C3 counterexample: the client and pool are created, and then the
stored-config read (`scoreConfig.findUnique`) throws — this happens *before*
the `try`, so neither `prisma.$disconnect()` nor `pool.end()` is ever
attempted and the exception propagates with the pool still open.  The same
holds for a failure of the initial attempted-status upsert. -/
theorem runSync_cleanup_skipped_cx :
    SyncStep.createClient ∈ (runSyncModel
      (fun s => if s = SyncStep.findDbConfig then some "db down" else none)
      0 0 none (0, 0) ⟨0, 0, 0⟩).trace ∧
    SyncStep.disconnect ∉ (runSyncModel
      (fun s => if s = SyncStep.findDbConfig then some "db down" else none)
      0 0 none (0, 0) ⟨0, 0, 0⟩).trace ∧
    SyncStep.poolEnd ∉ (runSyncModel
      (fun s => if s = SyncStep.findDbConfig then some "db down" else none)
      0 0 none (0, 0) ⟨0, 0, 0⟩).trace ∧
    (runSyncModel (fun s => if s = SyncStep.findDbConfig then some "db down" else none)
      0 0 none (0, 0) ⟨0, 0, 0⟩).result = Except.error "db down" := by
  decide

/-- C3 (amended): once the pre-`try` phase (config-file read, client
creation, stored-config read, initial status upsert) has succeeded, cleanup
is guaranteed on success and on every failure inside the fetch/process/
status-update phase: `$disconnect` is always attempted, and `pool.end()`
too unless the disconnect itself throws. -/
theorem runSync_cleanup_after_pre (fail : SyncStep → Option String) (startedAt now : ℤ)
    (init : Option SyncStatusRow) (stats : ℕ × ℕ) (refs : Refs)
    (h1 : fail .readConfig = none) (h2 : fail .createClient = none)
    (h3 : fail .findDbConfig = none) (h4 : fail .initialUpsert = none) :
    SyncStep.disconnect ∈ (runSyncModel fail startedAt now init stats refs).trace ∧
    (fail .disconnect = none →
      SyncStep.poolEnd ∈ (runSyncModel fail startedAt now init stats refs).trace) := by
  unfold runSyncModel
  rw [h1, h2, h3, h4]
  rcases hf : fail .fetchEvents with _ | e
  · rcases hm : fail .processMarkets with _ | e
    · rcases hs : fail .successUpdate with _ | e
      · exact catchAndCleanup_mem fail _ _ _
      · exact catchAndCleanup_mem fail _ _ _
    · exact catchAndCleanup_mem fail _ _ _
  · exact catchAndCleanup_mem fail _ _ _

/-- C3 witness: a fully successful run attempts both cleanup steps. -/
theorem runSync_cleanup_after_pre_witness :
    SyncStep.disconnect ∈ (runSyncModel (fun _ => none) 0 0 none (0, 0) ⟨0, 0, 0⟩).trace ∧
    ((fun (_ : SyncStep) => (none : Option String)) SyncStep.disconnect = none →
      SyncStep.poolEnd ∈ (runSyncModel (fun _ => none) 0 0 none (0, 0) ⟨0, 0, 0⟩).trace) :=
  runSync_cleanup_after_pre (fun _ => none) 0 0 none (0, 0) ⟨0, 0, 0⟩ rfl rfl rfl rfl

/-- C9: if any step after the initial attempted-status write throws (fetch,
market processing, or the success-status write) with message `m`, and the
failure write itself succeeds, then the final status row is exactly the
post-initial-upsert row with only `lastError` replaced by `m` —
`lastAttemptedSyncAt` keeps the run-start timestamp, and
`lastSuccessfulSyncAt`/`lastStats`/`lastRefs` are untouched — and the
exception is re-raised to the caller. -/
theorem runSync_failure_frame (fail : SyncStep → Option String) (startedAt now : ℤ)
    (init : Option SyncStatusRow) (stats : ℕ × ℕ) (refs : Refs) (m : String)
    (h1 : fail .readConfig = none) (h2 : fail .createClient = none)
    (h3 : fail .findDbConfig = none) (h4 : fail .initialUpsert = none)
    (h5 : fail .errorUpdate = none) (h6 : fail .disconnect = none)
    (h7 : fail .poolEnd = none)
    (hbody : fail .fetchEvents = some m
      ∨ (fail .fetchEvents = none ∧ fail .processMarkets = some m)
      ∨ (fail .fetchEvents = none ∧ fail .processMarkets = none
          ∧ fail .successUpdate = some m)) :
    (runSyncModel fail startedAt now init stats refs).status
        = some { applyInitialUpsert init startedAt with lastError := some m } ∧
    ({ applyInitialUpsert init startedAt with
        lastError := some m } : SyncStatusRow).lastAttemptedSyncAt = some startedAt ∧
    (runSyncModel fail startedAt now init stats refs).result = Except.error m := by
  have hat : ({ applyInitialUpsert init startedAt with
      lastError := some m } : SyncStatusRow).lastAttemptedSyncAt = some startedAt := by
    rcases init with _ | row <;> rfl
  unfold runSyncModel
  rw [h1, h2, h3, h4]
  rcases hbody with hb | ⟨hb1, hb⟩ | ⟨hb1, hb2, hb⟩
  · rw [hb]
    unfold catchAndCleanup
    rw [h5, h6, h7]
    exact ⟨rfl, hat, rfl⟩
  · rw [hb1, hb]
    unfold catchAndCleanup
    rw [h5, h6, h7]
    exact ⟨rfl, hat, rfl⟩
  · rw [hb1, hb2, hb]
    unfold catchAndCleanup
    rw [h5, h6, h7]
    exact ⟨rfl, hat, rfl⟩

/-- C9 witness: a fetch failure with message `"boom"` against a pre-existing
status row leaves every field except `lastError` as the initial upsert set
them (`lastAttemptedSyncAt = 99` from run start; success
timestamp/stats/refs untouched) and re-raises. -/
theorem runSync_failure_frame_witness :
    (runSyncModel (fun s => if s = SyncStep.fetchEvents then some "boom" else none)
        99 0 (some ⟨some 11, some 22, some "old", some (3, 4), some ⟨1, 2, 3⟩⟩)
        (0, 0) ⟨0, 0, 0⟩).status
      = some ⟨some 99, some 22, some "boom", some (3, 4), some ⟨1, 2, 3⟩⟩ ∧
    (runSyncModel (fun s => if s = SyncStep.fetchEvents then some "boom" else none)
        99 0 (some ⟨some 11, some 22, some "old", some (3, 4), some ⟨1, 2, 3⟩⟩)
        (0, 0) ⟨0, 0, 0⟩).result = Except.error "boom" := by
  have h := runSync_failure_frame
    (fun s => if s = SyncStep.fetchEvents then some "boom" else none)
    99 0 (some ⟨some 11, some 22, some "old", some (3, 4), some ⟨1, 2, 3⟩⟩)
    (0, 0) ⟨0, 0, 0⟩ "boom"
    (by decide) (by decide) (by decide) (by decide) (by decide) (by decide) (by decide)
    (Or.inl (by decide))
  exact ⟨h.1, h.2.2⟩
